import Mathlib

/-!
Verification of the furnace synthetic-data generator (`backend/data.py`).

The two update functions `calculate_temperature` and `calculate_excess_o2`
are embedded over the reals.  Each call to the process-wide random source
(`np.random.rand()`, which yields a value in `[0, 1)`) is modelled as one
value `r` passed explicitly; `np.random.uniform(lo, hi)` is modelled as
`lo + r * (hi - lo)` for such a draw `r`, and `np.clip` as `min (max x lo) hi`.
-/

namespace Furnace

/-- Embedding of `calculate_temperature` from `backend/data.py`.
`r` is the value drawn by `np.random.rand()` inside the function. -/
noncomputable def calculate_temperature (fuel_flow air_flow current_temp
    inflow_temp inflow_rate noise_level r : ℝ) : ℝ :=
  let fuel_s := fuel_flow / 3600
  let inflow_s := inflow_rate / 3600
  let AFR_opt := (14.7 : ℝ)
  let max_fuel_energy := (39000 : ℝ)
  let furnace_mass := (5000 : ℝ)
  let specific_heat := (0.5 : ℝ)
  let heat_loss_coeff := (0.0005 : ℝ)
  let inlet_coeff := (0.0002 : ℝ)
  let ambient_temp := (25 : ℝ)
  let time_step := (1 : ℝ)
  let AFR := air_flow / max fuel_flow 1e-3
  let efficiency := Real.exp (-(AFR - AFR_opt) ^ 2 / (2 * 2 ^ 2))
  let Q_comb := fuel_s * max_fuel_energy * efficiency * time_step
  let Q_loss := heat_loss_coeff * (current_temp - ambient_temp) * time_step
  let Q_inflow := inlet_coeff * inflow_s * (current_temp - inflow_temp) * time_step
  let net_energy := Q_comb - Q_loss - Q_inflow
  let temp_change := net_energy / (furnace_mass * specific_heat)
  let noise := (r - 0.5) * 2 * noise_level
  let new_temp := current_temp + temp_change + noise
  max ambient_temp new_temp

/-- Embedding of `calculate_excess_o2` from `backend/data.py`.
`afr` is the source's `air_fuel_ratio` argument and `r` the value drawn by
`np.random.rand()` inside the function. -/
noncomputable def calculate_excess_o2 (afr fuel_flow current_temp
    noise_level r : ℝ) : ℝ :=
  let fuel_s := fuel_flow / 3600
  let HHV := (39000 : ℝ)
  let U := (0.0005 : ℝ)
  let A := (10 : ℝ)
  let T_flame := (1800 : ℝ)
  let AFR_opt := (14.7 : ℝ)
  let sigma := (2 : ℝ)
  let eta := Real.exp (-(afr - AFR_opt) ^ 2 / (2 * sigma ^ 2))
  let Q_comb := fuel_s * HHV * eta
  let Q_trans := U * A * (T_flame - current_temp)
  let frac_lost := max 0 (1 - Q_trans / max Q_comb 1e-6)
  let excess_o2 := frac_lost * 21
  let noise := (r - 0.5) * 2 * noise_level
  max 0 (excess_o2 + noise)

/-- The ambient clamp of `calculate_temperature`: the returned value is the
`max` with `25`, for every input and every random draw. -/
lemma temp_ge_ambient (fuel_flow air_flow current_temp inflow_temp inflow_rate
    noise_level r : ℝ) :
    25 ≤ calculate_temperature fuel_flow air_flow current_temp inflow_temp
      inflow_rate noise_level r := by
  simp only [calculate_temperature]
  exact le_max_left _ _

/-- The zero clamp of `calculate_excess_o2`. -/
lemma o2_nonneg (afr fuel_flow current_temp noise_level r : ℝ) :
    0 ≤ calculate_excess_o2 afr fuel_flow current_temp noise_level r := by
  simp only [calculate_excess_o2]
  exact le_max_left _ _

/-- Claim C1: for every input (any reals for current_temp and inflow_temp, any
fuel_flow, air_flow, inflow_rate, any noise_level ≥ 0, and any value drawn by
the random source), `calculate_temperature` returns a value ≥ 25.0 and
`calculate_excess_o2` returns a value ≥ 0.0. -/
theorem calc_outputs_clamped (fuel_flow air_flow current_temp inflow_temp
    inflow_rate afr fuel_flow2 current_temp2 noise_level r r2 : ℝ)
    (hnl : 0 ≤ noise_level) :
    25 ≤ calculate_temperature fuel_flow air_flow current_temp inflow_temp
        inflow_rate noise_level r ∧
    0 ≤ calculate_excess_o2 afr fuel_flow2 current_temp2 noise_level r2 :=
  ⟨temp_ge_ambient _ _ _ _ _ _ _, o2_nonneg _ _ _ _ _⟩

/-- Witness for C1 at a concrete input. -/
theorem calc_outputs_clamped_witness :
    (0 : ℝ) ≤ 1 ∧
    (25 ≤ calculate_temperature 10 147 200 150 100 1 0.5 ∧
      0 ≤ calculate_excess_o2 14.7 10 300 1 0.5) :=
  ⟨by norm_num, calc_outputs_clamped 10 147 200 150 100 14.7 10 300 1 0.5 0.5
    (by norm_num)⟩

/-- Value of `calculate_temperature` at the spec's concrete scenario: the
Gaussian efficiency is exactly 1 (AFR = 147/10 = 14.7) and the noise term is 0
because noise_level = 0, so the result is the plain heat balance. -/
lemma temp_concrete_value (r : ℝ) :
    calculate_temperature 10 147 200 150 100 0 r =
      200 + (10 / 3600 * 39000 * 1 - 0.0005 * (200 - 25)
        - 0.0002 * (100 / 3600) * (200 - 150)) / (5000 * 0.5) := by
  simp only [calculate_temperature]
  have hmax : max (10 : ℝ) 1e-3 = 10 := max_eq_left (by norm_num)
  rw [hmax]
  have hafr : (147 : ℝ) / 10 - 14.7 = 0 := by norm_num
  rw [hafr]
  norm_num [Real.exp_zero]

/-- Claim C2: with fuel_flow=10, air_flow=147, current_temp=200,
inflow_temp=150, inflow_rate=100 and noise_level=0, `calculate_temperature`
returns exactly (hence within 1e-6 of) the stated deterministic heat balance
with Gaussian efficiency 1 at the optimal air-fuel ratio 14.7, for every
random draw `r`. -/
theorem temp_concrete_scenario (r : ℝ) :
    calculate_temperature 10 147 200 150 100 0 r =
      200 + (10 / 3600 * 39000 * 1 - 0.0005 * (200 - 25)
        - 0.0002 * (100 / 3600) * (200 - 150)) / (5000 * 0.5) ∧
    |calculate_temperature 10 147 200 150 100 0 r -
      (200 + (10 / 3600 * 39000 * 1 - 0.0005 * (200 - 25)
        - 0.0002 * (100 / 3600) * (200 - 150)) / (5000 * 0.5))| ≤ 1e-6 := by
  refine ⟨temp_concrete_value r, ?_⟩
  rw [temp_concrete_value r, sub_self, abs_zero]
  norm_num

/-- Claim C3: with air-fuel ratio 14.7, any positive fuel_flow,
current_temp = 1800 (the flame temperature) and noise_level = 0, the O₂
reading is exactly 21.0: the transfer heat rate vanishes so the lost
fraction is 1. -/
theorem o2_concrete_scenario (fuel_flow r : ℝ) (hf : 0 < fuel_flow) :
    calculate_excess_o2 14.7 fuel_flow 1800 0 r = 21 := by
  simp only [calculate_excess_o2]
  have h1 : (14.7 : ℝ) - 14.7 = 0 := by norm_num
  rw [h1]
  norm_num [Real.exp_zero]

/-- Witness for C3 at fuel_flow = 10, r = 0.5. -/
theorem o2_concrete_scenario_witness :
    (0 : ℝ) < 10 ∧ calculate_excess_o2 14.7 10 1800 0 0.5 = 21 :=
  ⟨by norm_num, o2_concrete_scenario 10 0.5 (by norm_num)⟩

/-- Claim C10: with fuel_flow > 0, current_temp ≤ 1800 and noise_level = 0,
the O₂ reading never exceeds 21: the lost fraction lies in [0, 1] because the
flame-to-surface transfer rate is non-negative. -/
theorem o2_upper_bound (afr fuel_flow current_temp r : ℝ)
    (hf : 0 < fuel_flow) (hc : current_temp ≤ 1800) :
    calculate_excess_o2 afr fuel_flow current_temp 0 r ≤ 21 := by
  simp only [calculate_excess_o2]
  have hnoise : (r - 0.5) * 2 * 0 = 0 := by ring
  rw [hnoise, add_zero]
  have hden : (0 : ℝ) < max (fuel_flow / 3600 * 39000 *
      Real.exp (-(afr - 14.7) ^ 2 / (2 * 2 ^ 2))) 1e-6 :=
    lt_of_lt_of_le (by norm_num) (le_max_right _ _)
  have htrans : (0 : ℝ) ≤ 0.0005 * 10 * (1800 - current_temp) := by nlinarith
  have hdiv : (0 : ℝ) ≤ 0.0005 * 10 * (1800 - current_temp) /
      max (fuel_flow / 3600 * 39000 *
        Real.exp (-(afr - 14.7) ^ 2 / (2 * 2 ^ 2))) 1e-6 :=
    div_nonneg htrans hden.le
  have hfrac : max (0 : ℝ) (1 - 0.0005 * 10 * (1800 - current_temp) /
      max (fuel_flow / 3600 * 39000 *
        Real.exp (-(afr - 14.7) ^ 2 / (2 * 2 ^ 2))) 1e-6) ≤ 1 :=
    max_le (by norm_num) (by linarith)
  have h21 : max (0 : ℝ) (1 - 0.0005 * 10 * (1800 - current_temp) /
      max (fuel_flow / 3600 * 39000 *
        Real.exp (-(afr - 14.7) ^ 2 / (2 * 2 ^ 2))) 1e-6) * 21 ≤ 21 := by
    nlinarith [le_max_left (0 : ℝ) (1 - 0.0005 * 10 * (1800 - current_temp) /
      max (fuel_flow / 3600 * 39000 *
        Real.exp (-(afr - 14.7) ^ 2 / (2 * 2 ^ 2))) 1e-6)]
  exact max_le (by norm_num) h21

/-- Witness for C10 at a concrete input. -/
theorem o2_upper_bound_witness :
    ((0 : ℝ) < 10 ∧ (300 : ℝ) ≤ 1800) ∧
    calculate_excess_o2 5 10 300 0 0.5 ≤ 21 :=
  ⟨⟨by norm_num, by norm_num⟩,
    o2_upper_bound 5 10 300 0.5 (by norm_num) (by norm_num)⟩

/-- `np.random.uniform(lo, hi)` for one underlying draw `r ∈ [0, 1)`. -/
def uniform (lo hi r : ℝ) : ℝ := lo + r * (hi - lo)

/-- `np.clip(x, lo, hi)`. -/
def clip (x lo hi : ℝ) : ℝ := min (max x lo) hi

/-- One row of the generated table (`records.append({...})` in the source).
`afr` is the source's `air_fuel_ratio` column. -/
structure Record where
  sequence : ℕ
  timestep : ℕ
  fuel_flow : ℝ
  afr : ℝ
  current_temp : ℝ
  inflow_temp : ℝ
  inflow_rate : ℝ
  next_temp : ℝ
  next_excess_o2 : ℝ
deriving Inhabited

/-- The module-level `ranges` dictionary: (lower, upper) sampling bounds for
each of the five input features. -/
structure Ranges where
  fuel_flow : ℝ × ℝ
  afr : ℝ × ℝ
  current_temp : ℝ × ℝ
  inflow_temp : ℝ × ℝ
  inflow_rate : ℝ × ℝ

/-- The concrete configuration of `backend/data.py`. -/
def ranges : Ranges :=
  ⟨(1, 20), (0.6, 25), (25, 500), (100, 200), (50, 200)⟩

/-- Module-level `num_sequences = 10000`. -/
def num_sequences : ℕ := 10000

/-- Module-level `sequence_length = 30`. -/
def sequence_length : ℕ := 30

/-- The inner `for t in range(sequence_length)` loop of the generator,
emitting one record per step.  Per step the random source is consumed four
times, at indices `i` (noise inside `calculate_temperature`), `i+1` (noise
inside `calculate_excess_o2`), `i+2` (inflow-temperature walk) and `i+3`
(inflow-rate walk); the noise levels are the source defaults 1.0 and 0.2. -/
noncomputable def simSteps (R : Ranges) (rng : ℕ → ℝ)
    (fuel_flow afr air_flow : ℝ) (seq : ℕ) :
    ℕ → ℕ → ℕ → ℝ → ℝ → ℝ → List Record
  | 0, _, _, _, _, _ => []
  | k + 1, t, i, ct, it, ir =>
    { sequence := seq, timestep := t, fuel_flow := fuel_flow, afr := afr,
      current_temp := ct, inflow_temp := it, inflow_rate := ir,
      next_temp := calculate_temperature fuel_flow air_flow ct it ir 1 (rng i),
      next_excess_o2 := calculate_excess_o2 afr fuel_flow ct 0.2 (rng (i + 1)) } ::
    simSteps R rng fuel_flow afr air_flow seq k (t + 1) (i + 4)
      (calculate_temperature fuel_flow air_flow ct it ir 1 (rng i))
      (clip (it + (rng (i + 2) - 0.5) * 10) R.inflow_temp.1 R.inflow_temp.2)
      (clip (ir + (rng (i + 3) - 0.5) * 20) R.inflow_rate.1 R.inflow_rate.2)

/-- One iteration of the outer `for seq in range(num_sequences)` loop:
sample the five initial values (consuming draws `i..i+4`), derive
`air_flow = fuel_flow * afr`, and run `L` simulation steps. -/
noncomputable def runSequence (R : Ranges) (rng : ℕ → ℝ) (L seq i : ℕ) :
    List Record :=
  simSteps R rng
    (uniform R.fuel_flow.1 R.fuel_flow.2 (rng i))
    (uniform R.afr.1 R.afr.2 (rng (i + 1)))
    (uniform R.fuel_flow.1 R.fuel_flow.2 (rng i) *
      uniform R.afr.1 R.afr.2 (rng (i + 1)))
    seq L 0 (i + 5)
    (uniform R.current_temp.1 R.current_temp.2 (rng (i + 2)))
    (uniform R.inflow_temp.1 R.inflow_temp.2 (rng (i + 3)))
    (uniform R.inflow_rate.1 R.inflow_rate.2 (rng (i + 4)))

/-- The full generation loop: sequences `0 .. N-1` in emission order, each
consuming `4*L + 5` draws from the random source. -/
noncomputable def genRecords (R : Ranges) (rng : ℕ → ℝ) (L : ℕ) :
    ℕ → List Record
  | 0 => []
  | n + 1 => genRecords R rng L n ++ runSequence R rng L n (n * (4 * L + 5))

lemma simSteps_length (R : Ranges) (rng : ℕ → ℝ) (f a af : ℝ) (s : ℕ) :
    ∀ (k t i : ℕ) (ct it ir : ℝ),
      (simSteps R rng f a af s k t i ct it ir).length = k := by
  intro k
  induction k with
  | zero => intro t i ct it ir; simp [simSteps]
  | succ k ih => intro t i ct it ir; simp [simSteps, ih]

lemma runSequence_length (R : Ranges) (rng : ℕ → ℝ) (L s i : ℕ) :
    (runSequence R rng L s i).length = L := by
  simp [runSequence, simSteps_length]

lemma genRecords_length (R : Ranges) (rng : ℕ → ℝ) (L : ℕ) :
    ∀ N, (genRecords R rng L N).length = N * L := by
  intro N
  induction N with
  | zero => simp [genRecords]
  | succ n ih =>
    simp [genRecords, ih, runSequence_length, Nat.succ_mul]

lemma simSteps_mem_sequence (R : Ranges) (rng : ℕ → ℝ) (f a af : ℝ) (s : ℕ) :
    ∀ (k t i : ℕ) (ct it ir : ℝ) (r : Record),
      r ∈ simSteps R rng f a af s k t i ct it ir → r.sequence = s := by
  intro k
  induction k with
  | zero => intro t i ct it ir r hr; simp [simSteps] at hr
  | succ k ih =>
    intro t i ct it ir r hr
    simp only [simSteps, List.mem_cons] at hr
    rcases hr with h | h
    · subst h; rfl
    · exact ih _ _ _ _ _ _ h

lemma runSequence_mem_sequence (R : Ranges) (rng : ℕ → ℝ) (L s i : ℕ)
    (r : Record) (hr : r ∈ runSequence R rng L s i) : r.sequence = s :=
  simSteps_mem_sequence R rng _ _ _ s _ _ _ _ _ _ r hr

lemma genRecords_mem_lt (R : Ranges) (rng : ℕ → ℝ) (L : ℕ) :
    ∀ N (r : Record), r ∈ genRecords R rng L N → r.sequence < N := by
  intro N
  induction N with
  | zero => intro r hr; simp [genRecords] at hr
  | succ n ih =>
    intro r hr
    simp only [genRecords, List.mem_append] at hr
    rcases hr with h | h
    · exact Nat.lt_succ_of_lt (ih r h)
    · rw [runSequence_mem_sequence R rng L n _ r h]; exact Nat.lt_succ_self n

lemma genRecords_filter (R : Ranges) (rng : ℕ → ℝ) (L : ℕ) :
    ∀ N s, s < N →
      (genRecords R rng L N).filter (fun r => r.sequence == s) =
        runSequence R rng L s (s * (4 * L + 5)) := by
  intro N
  induction N with
  | zero => intro s hs; exact absurd hs (Nat.not_lt_zero s)
  | succ n ih =>
    intro s hs
    rw [genRecords, List.filter_append]
    rcases Nat.lt_succ_iff_lt_or_eq.mp hs with h | h
    · have h2 : (runSequence R rng L n (n * (4 * L + 5))).filter
          (fun r => r.sequence == s) = [] := by
        rw [List.filter_eq_nil_iff]
        intro r hr
        have := runSequence_mem_sequence R rng L n _ r hr
        simp [this, Nat.ne_of_gt h]
      rw [ih s h, h2, List.append_nil]
    · subst h
      have h1 : (genRecords R rng L s).filter (fun r => r.sequence == s) = [] := by
        rw [List.filter_eq_nil_iff]
        intro r hr
        have := genRecords_mem_lt R rng L s r hr
        simp [Nat.ne_of_lt this]
      have h2 : (runSequence R rng L s (s * (4 * L + 5))).filter
          (fun r => r.sequence == s) =
          runSequence R rng L s (s * (4 * L + 5)) := by
        rw [List.filter_eq_self]
        intro r hr
        simp [runSequence_mem_sequence R rng L s _ r hr]
      rw [h1, h2, List.nil_append]

lemma simSteps_map_timestep (R : Ranges) (rng : ℕ → ℝ) (f a af : ℝ) (s : ℕ) :
    ∀ (k t i : ℕ) (ct it ir : ℝ),
      (simSteps R rng f a af s k t i ct it ir).map (fun r => r.timestep) =
        List.range' t k := by
  intro k
  induction k with
  | zero => intro t i ct it ir; simp [simSteps]
  | succ k ih =>
    intro t i ct it ir
    rw [List.range'_succ]
    simp only [simSteps, List.map_cons, ih]

lemma runSequence_map_timestep (R : Ranges) (rng : ℕ → ℝ) (L s i : ℕ) :
    (runSequence R rng L s i).map (fun r => r.timestep) = List.range L := by
  rw [runSequence, simSteps_map_timestep, List.range_eq_range']

/-- Claim C5: for a run with `num_sequences = N` and `sequence_length = L`
(defaults 10000 and 30), the generated table has exactly `N * L` rows; each
sequence identifier `s < N` appears in exactly `L` rows, and within a
sequence the timestep values are exactly `0, 1, ..., L-1` in emission
order. -/
theorem table_shape (rng : ℕ → ℝ) (N L s : ℕ) (hs : s < N) :
    (genRecords ranges rng L N).length = N * L ∧
    ((genRecords ranges rng L N).filter (fun r => r.sequence == s)).length = L ∧
    ((genRecords ranges rng L N).filter (fun r => r.sequence == s)).map
      (fun r => r.timestep) = List.range L := by
  refine ⟨genRecords_length ranges rng L N, ?_, ?_⟩
  · rw [genRecords_filter ranges rng L N s hs, runSequence_length]
  · rw [genRecords_filter ranges rng L N s hs, runSequence_map_timestep]

/-- Witness for C5 with two sequences of length three. -/
theorem table_shape_witness :
    1 < 2 ∧
    ((genRecords ranges (fun _ => 0) 3 2).length = 2 * 3 ∧
      ((genRecords ranges (fun _ => 0) 3 2).filter
        (fun r => r.sequence == 1)).length = 3 ∧
      ((genRecords ranges (fun _ => 0) 3 2).filter
        (fun r => r.sequence == 1)).map (fun r => r.timestep) = List.range 3) :=
  ⟨by norm_num, table_shape (fun _ => 0) 2 3 1 (by norm_num)⟩

lemma clip_mem (x lo hi : ℝ) (h : lo ≤ hi) :
    lo ≤ clip x lo hi ∧ clip x lo hi ≤ hi :=
  ⟨le_min (le_max_right _ _) h, min_le_right _ _⟩

lemma uniform_mem (lo hi r : ℝ) (hlo : lo ≤ hi) (hr0 : 0 ≤ r) (hr1 : r < 1) :
    lo ≤ uniform lo hi r ∧ uniform lo hi r ≤ hi := by
  constructor <;> (simp only [uniform]; nlinarith)

/-- Per-step invariant of the inner loop, at the concrete configuration:
if the incoming state satisfies the bounds, every emitted record does. -/
lemma simSteps_invariant (rng : ℕ → ℝ) (f a af : ℝ) (s : ℕ) :
    ∀ (k t i : ℕ) (ct it ir : ℝ), 25 ≤ ct →
      100 ≤ it → it ≤ 200 → 50 ≤ ir → ir ≤ 200 →
      ∀ r ∈ simSteps ranges rng f a af s k t i ct it ir,
        25 ≤ r.current_temp ∧ 25 ≤ r.next_temp ∧ 0 ≤ r.next_excess_o2 ∧
        100 ≤ r.inflow_temp ∧ r.inflow_temp ≤ 200 ∧
        50 ≤ r.inflow_rate ∧ r.inflow_rate ≤ 200 := by
  intro k
  induction k with
  | zero => intro t i ct it ir _ _ _ _ _ r hr; simp [simSteps] at hr
  | succ k ih =>
    intro t i ct it ir hct hit1 hit2 hir1 hir2 r hr
    simp only [simSteps, List.mem_cons] at hr
    rcases hr with h | h
    · subst h
      exact ⟨hct, temp_ge_ambient _ _ _ _ _ _ _, o2_nonneg _ _ _ _ _,
        hit1, hit2, hir1, hir2⟩
    · have hclipT := clip_mem (it + (rng (i + 2) - 0.5) * 10)
        ranges.inflow_temp.1 ranges.inflow_temp.2 (by norm_num [ranges])
      have hclipR := clip_mem (ir + (rng (i + 3) - 0.5) * 20)
        ranges.inflow_rate.1 ranges.inflow_rate.2 (by norm_num [ranges])
      refine ih _ _ _ _ _ (temp_ge_ambient _ _ _ _ _ _ _) ?_ ?_ ?_ ?_ r h
      · simpa [ranges] using hclipT.1
      · simpa [ranges] using hclipT.2
      · simpa [ranges] using hclipR.1
      · simpa [ranges] using hclipR.2

/-- Every record of the generated table satisfies the clamp bounds, given
that the random source always yields values in `[0, 1)`. -/
lemma genRecords_invariant (rng : ℕ → ℝ)
    (hrng : ∀ i, 0 ≤ rng i ∧ rng i < 1) (L : ℕ) :
    ∀ N, ∀ r ∈ genRecords ranges rng L N,
      25 ≤ r.current_temp ∧ 25 ≤ r.next_temp ∧ 0 ≤ r.next_excess_o2 ∧
      100 ≤ r.inflow_temp ∧ r.inflow_temp ≤ 200 ∧
      50 ≤ r.inflow_rate ∧ r.inflow_rate ≤ 200 := by
  intro N
  induction N with
  | zero => intro r hr; simp [genRecords] at hr
  | succ n ih =>
    intro r hr
    simp only [genRecords, List.mem_append] at hr
    rcases hr with h | h
    · exact ih r h
    · rw [runSequence] at h
      set i0 := n * (4 * L + 5) with hi0
      have hct := uniform_mem (ranges.current_temp.1) (ranges.current_temp.2)
        (rng (i0 + 2)) (by norm_num [ranges]) (hrng (i0 + 2)).1 (hrng (i0 + 2)).2
      have hit := uniform_mem (ranges.inflow_temp.1) (ranges.inflow_temp.2)
        (rng (i0 + 3)) (by norm_num [ranges]) (hrng (i0 + 3)).1 (hrng (i0 + 3)).2
      have hir := uniform_mem (ranges.inflow_rate.1) (ranges.inflow_rate.2)
        (rng (i0 + 4)) (by norm_num [ranges]) (hrng (i0 + 4)).1 (hrng (i0 + 4)).2
      refine simSteps_invariant rng _ _ _ n L 0 (i0 + 5) _ _ _ ?_ ?_ ?_ ?_ ?_ r h
      · have := hct.1; simpa [ranges] using this
      · have := hit.1; simpa [ranges] using this
      · have := hit.2; simpa [ranges] using this
      · have := hir.1; simpa [ranges] using this
      · have := hir.2; simpa [ranges] using this

/-- Claim C6: every emitted row of every sequence has `inflow_temp` in
[100, 200] and `inflow_rate` in [50, 200] — initial values are sampled
inside these ranges and each random-walk perturbation is clamped back into
them. -/
theorem inflow_within_range (rng : ℕ → ℝ)
    (hrng : ∀ i, 0 ≤ rng i ∧ rng i < 1) (L N : ℕ) :
    ∀ r ∈ genRecords ranges rng L N,
      100 ≤ r.inflow_temp ∧ r.inflow_temp ≤ 200 ∧
      50 ≤ r.inflow_rate ∧ r.inflow_rate ≤ 200 := by
  intro r hr
  have h := genRecords_invariant rng hrng L N r hr
  exact ⟨h.2.2.2.1, h.2.2.2.2.1, h.2.2.2.2.2.1, h.2.2.2.2.2.2⟩

/-- Witness for C6: the constant-zero random source with one sequence of
length two. -/
theorem inflow_within_range_witness :
    (∀ i : ℕ, 0 ≤ (fun _ : ℕ => (0 : ℝ)) i ∧ (fun _ : ℕ => (0 : ℝ)) i < 1) ∧
    (∀ r ∈ genRecords ranges (fun _ => 0) 2 1,
      100 ≤ r.inflow_temp ∧ r.inflow_temp ≤ 200 ∧
      50 ≤ r.inflow_rate ∧ r.inflow_rate ≤ 200) :=
  ⟨fun _ => ⟨le_refl 0, one_pos⟩,
    inflow_within_range (fun _ => 0) (fun _ => ⟨le_refl 0, one_pos⟩) 2 1⟩

/-- Claim C8: no emitted row contains a below-ambient temperature or a
negative excess-O₂ value: every record has `current_temp ≥ 25`,
`next_temp ≥ 25` and `next_excess_o2 ≥ 0`.  (In this real-valued embedding
every field is a real number, so NaN/infinite values cannot arise at all;
the clamp inequalities are the substantive content.) -/
theorem no_invalid_output_values (rng : ℕ → ℝ)
    (hrng : ∀ i, 0 ≤ rng i ∧ rng i < 1) (L N : ℕ) :
    ∀ r ∈ genRecords ranges rng L N,
      25 ≤ r.current_temp ∧ 25 ≤ r.next_temp ∧ 0 ≤ r.next_excess_o2 := by
  intro r hr
  have h := genRecords_invariant rng hrng L N r hr
  exact ⟨h.1, h.2.1, h.2.2.1⟩

/-- Witness for C8. -/
theorem no_invalid_output_values_witness :
    (∀ i : ℕ, 0 ≤ (fun _ : ℕ => (0 : ℝ)) i ∧ (fun _ : ℕ => (0 : ℝ)) i < 1) ∧
    (∀ r ∈ genRecords ranges (fun _ => 0) 2 1,
      25 ≤ r.current_temp ∧ 25 ≤ r.next_temp ∧ 0 ≤ r.next_excess_o2) :=
  ⟨fun _ => ⟨le_refl 0, one_pos⟩,
    no_invalid_output_values (fun _ => 0) (fun _ => ⟨le_refl 0, one_pos⟩) 2 1⟩

/-- The rows the generated table holds for sequence `s`, in emission order. -/
noncomputable def seqRows (rng : ℕ → ℝ) (L N s : ℕ) : List Record :=
  (genRecords ranges rng L N).filter (fun r => r.sequence == s)

/-- Consecutive records of the inner loop: the state recorded at position
`j + 1` is the committed output `next_temp` of position `j` together with the
clamp of the random-walk perturbation of the inflow variables of position
`j` — the perturbation only reads the previous inflow value and two fresh
draws. -/
lemma simSteps_getD_succ (R : Ranges) (rng : ℕ → ℝ) (f a af : ℝ) (s : ℕ) :
    ∀ (k j t i : ℕ) (ct it ir : ℝ), j + 1 < k →
      (((simSteps R rng f a af s k t i ct it ir).getD (j + 1)
          default).current_temp =
        ((simSteps R rng f a af s k t i ct it ir).getD j default).next_temp ∧
      ((simSteps R rng f a af s k t i ct it ir).getD (j + 1)
          default).inflow_temp =
        clip (((simSteps R rng f a af s k t i ct it ir).getD j
            default).inflow_temp + (rng (i + 4 * j + 2) - 0.5) * 10)
          R.inflow_temp.1 R.inflow_temp.2 ∧
      ((simSteps R rng f a af s k t i ct it ir).getD (j + 1)
          default).inflow_rate =
        clip (((simSteps R rng f a af s k t i ct it ir).getD j
            default).inflow_rate + (rng (i + 4 * j + 3) - 0.5) * 20)
          R.inflow_rate.1 R.inflow_rate.2) := by
  intro k
  induction k with
  | zero => intro j t i ct it ir hj; exact absurd hj (Nat.not_lt_zero _)
  | succ k ih =>
    intro j t i ct it ir hj
    match j with
    | 0 =>
      have hk : 0 < k := Nat.lt_of_succ_lt_succ hj
      obtain ⟨k', rfl⟩ : ∃ k', k = k' + 1 :=
        ⟨k - 1, (Nat.succ_pred_eq_of_pos hk).symm⟩
      simp [simSteps, List.getD_cons_zero, List.getD_cons_succ]
    | j' + 1 =>
      have hj' : j' + 1 < k := Nat.lt_of_succ_lt_succ hj
      have h := ih j' (t + 1) (i + 4)
        (calculate_temperature f af ct it ir 1 (rng i))
        (clip (it + (rng (i + 2) - 0.5) * 10) R.inflow_temp.1 R.inflow_temp.2)
        (clip (ir + (rng (i + 3) - 0.5) * 20) R.inflow_rate.1 R.inflow_rate.2)
        hj'
      have e2 : i + 4 + 4 * j' + 2 = i + 4 * (j' + 1) + 2 := by ring
      have e3 : i + 4 + 4 * j' + 3 = i + 4 * (j' + 1) + 3 := by ring
      rw [e2, e3] at h
      simpa only [simSteps, List.getD_cons_succ] using h

/-- Claim C7: within a sequence, the `current_temp` recorded at timestep
`t + 1` equals the `next_temp` recorded at timestep `t`, while the inflow
variables at `t + 1` are the clamped random-walk perturbations of their
values at `t`, using only fresh random draws — independent of the
temperature state. -/
theorem markov_step (rng : ℕ → ℝ) (N L s t : ℕ) (hs : s < N)
    (ht : t + 1 < L) :
    ((seqRows rng L N s).getD (t + 1) default).current_temp =
      ((seqRows rng L N s).getD t default).next_temp ∧
    ((seqRows rng L N s).getD (t + 1) default).inflow_temp =
      clip (((seqRows rng L N s).getD t default).inflow_temp +
        (rng (s * (4 * L + 5) + 5 + 4 * t + 2) - 0.5) * 10) 100 200 ∧
    ((seqRows rng L N s).getD (t + 1) default).inflow_rate =
      clip (((seqRows rng L N s).getD t default).inflow_rate +
        (rng (s * (4 * L + 5) + 5 + 4 * t + 3) - 0.5) * 20) 50 200 := by
  have hfilter : seqRows rng L N s =
      runSequence ranges rng L s (s * (4 * L + 5)) := by
    rw [seqRows, genRecords_filter ranges rng L N s hs]
  rw [hfilter, runSequence]
  have h := simSteps_getD_succ ranges rng
    (uniform ranges.fuel_flow.1 ranges.fuel_flow.2 (rng (s * (4 * L + 5))))
    (uniform ranges.afr.1 ranges.afr.2 (rng (s * (4 * L + 5) + 1)))
    (uniform ranges.fuel_flow.1 ranges.fuel_flow.2 (rng (s * (4 * L + 5))) *
      uniform ranges.afr.1 ranges.afr.2 (rng (s * (4 * L + 5) + 1)))
    s L t 0 (s * (4 * L + 5) + 5)
    (uniform ranges.current_temp.1 ranges.current_temp.2
      (rng (s * (4 * L + 5) + 2)))
    (uniform ranges.inflow_temp.1 ranges.inflow_temp.2
      (rng (s * (4 * L + 5) + 3)))
    (uniform ranges.inflow_rate.1 ranges.inflow_rate.2
      (rng (s * (4 * L + 5) + 4)))
    ht
  simpa [ranges] using h

/-- Witness for C7: one sequence of length two, constant-zero random
source. -/
theorem markov_step_witness :
    (0 < 1 ∧ 0 + 1 < 2) ∧
    (((seqRows (fun _ => 0) 2 1 0).getD (0 + 1) default).current_temp =
        ((seqRows (fun _ => 0) 2 1 0).getD 0 default).next_temp ∧
      ((seqRows (fun _ => 0) 2 1 0).getD (0 + 1) default).inflow_temp =
        clip (((seqRows (fun _ => 0) 2 1 0).getD 0 default).inflow_temp +
          ((fun _ : ℕ => (0 : ℝ)) (0 * (4 * 2 + 5) + 5 + 4 * 0 + 2) - 0.5) * 10)
          100 200 ∧
      ((seqRows (fun _ => 0) 2 1 0).getD (0 + 1) default).inflow_rate =
        clip (((seqRows (fun _ => 0) 2 1 0).getD 0 default).inflow_rate +
          ((fun _ : ℕ => (0 : ℝ)) (0 * (4 * 2 + 5) + 5 + 4 * 0 + 3) - 0.5) * 20)
          50 200) :=
  ⟨⟨by norm_num, by norm_num⟩,
    markov_step (fun _ => 0) 1 2 0 0 (by norm_num) (by norm_num)⟩

/-- Gaussian efficiency is at most 1. -/
lemma efficiency_le_one (x : ℝ) : Real.exp (-(x - 14.7) ^ 2 / (2 * 2 ^ 2)) ≤ 1 := by
  rw [show (1 : ℝ) = Real.exp 0 from Real.exp_zero.symm]
  refine Real.exp_le_exp.mpr ?_
  nlinarith [sq_nonneg (x - 14.7)]

/-- Claim C4 counterexample: at `fuel_flow = 0.0001` (below the division
guard `1e-3`), the air flow satisfying `air_flow / fuel_flow = 14.7`
(namely `0.00147`) yields a strictly smaller temperature than
`air_flow = 0.0147`, so the claimed point is not a maximizer. -/
theorem afr_peak_counterexample :
    calculate_temperature 0.0001 0.00147 200 150 100 0 0.5 <
    calculate_temperature 0.0001 0.0147 200 150 100 0 0.5 := by
  simp only [calculate_temperature]
  have hmax : max (0.0001 : ℝ) 1e-3 = 1e-3 := max_eq_right (by norm_num)
  rw [hmax]
  have h1 : (0.0147 : ℝ) / 1e-3 - 14.7 = 0 := by norm_num
  have h2 : (0.00147 : ℝ) / 1e-3 - 14.7 = -13.23 := by norm_num
  rw [h1, h2]
  have hE0 : 0 < Real.exp (-(-13.23 : ℝ) ^ 2 / (2 * 2 ^ 2)) := Real.exp_pos _
  have hE1 : Real.exp (-(-13.23 : ℝ) ^ 2 / (2 * 2 ^ 2)) < 1 := by
    rw [show (1 : ℝ) = Real.exp 0 from Real.exp_zero.symm]
    exact Real.exp_lt_exp.mpr (by norm_num)
  rw [show (-(0 : ℝ) ^ 2 / (2 * 2 ^ 2)) = 0 by norm_num, Real.exp_zero]
  have hL : (25 : ℝ) < 200 + (0.0001 / 3600 * 39000 *
      Real.exp (-(-13.23 : ℝ) ^ 2 / (2 * 2 ^ 2)) * 1
      - 0.0005 * (200 - 25) * 1
      - 0.0002 * (100 / 3600) * (200 - 150) * 1) / (5000 * 0.5)
      + (0.5 - 0.5) * 2 * 0 := by nlinarith
  have hR : (25 : ℝ) < 200 + (0.0001 / 3600 * 39000 * 1 * 1
      - 0.0005 * (200 - 25) * 1
      - 0.0002 * (100 / 3600) * (200 - 150) * 1) / (5000 * 0.5)
      + (0.5 - 0.5) * 2 * 0 := by nlinarith
  rw [max_eq_right hL.le, max_eq_right hR.le]
  nlinarith

/-- Claim C4 amended: with noise ignored and the other inputs held fixed,
`calculate_temperature` as a function of `air_flow` is maximized at
`air_flow = 14.7 * max fuel_flow 1e-3` — the Gaussian peak sits at the
*guarded* air-fuel ratio `air_flow / max(fuel_flow, 1e-3) = 14.7`, which
coincides with `air_flow / fuel_flow = 14.7` only when
`fuel_flow ≥ 1e-3`. -/
theorem afr_peak_amended (fuel_flow air_flow current_temp inflow_temp
    inflow_rate r : ℝ) (hf : 0 < fuel_flow) :
    calculate_temperature fuel_flow air_flow current_temp inflow_temp
        inflow_rate 0 r ≤
    calculate_temperature fuel_flow (14.7 * max fuel_flow 1e-3) current_temp
        inflow_temp inflow_rate 0 r := by
  simp only [calculate_temperature]
  have hM : (0 : ℝ) < max fuel_flow 1e-3 :=
    lt_of_lt_of_le (by norm_num) (le_max_right _ _)
  rw [show (14.7 : ℝ) * max fuel_flow 1e-3 / max fuel_flow 1e-3 = 14.7 from by
    field_simp]
  rw [show (-((14.7 : ℝ) - 14.7) ^ 2 / (2 * 2 ^ 2)) = 0 by norm_num,
    Real.exp_zero]
  refine max_le_max le_rfl ?_
  have heff := efficiency_le_one (air_flow / max fuel_flow 1e-3)
  have h0 : (0 : ℝ) ≤ Real.exp
      (-(air_flow / max fuel_flow 1e-3 - 14.7) ^ 2 / (2 * 2 ^ 2)) :=
    (Real.exp_pos _).le
  nlinarith [mul_nonneg hf.le (sub_nonneg.mpr heff)]

/-- Witness for the amended C4 at a concrete input. -/
theorem afr_peak_amended_witness :
    (0 : ℝ) < 10 ∧
    calculate_temperature 10 100 200 150 100 0 0.5 ≤
      calculate_temperature 10 (14.7 * max 10 1e-3) 200 150 100 0 0.5 :=
  ⟨by norm_num, afr_peak_amended 10 100 200 150 100 0.5 (by norm_num)⟩

/-- An invalid configuration: every sampling range has its lower bound
above its upper bound. -/
def badRanges : Ranges :=
  ⟨(20, 1), (25, 0.6), (500, 25), (200, 100), (200, 50)⟩

/-- Claim C9 counterexample: under a configuration whose `fuel_flow`
sampling range has lower bound ≥ upper bound, the generator does not fail
before producing records — it still emits a full sequence of 30 rows. -/
theorem no_config_validation_counterexample :
    badRanges.fuel_flow.2 ≤ badRanges.fuel_flow.1 ∧
    (genRecords badRanges (fun _ => 0) 30 1).length = 30 := by
  refine ⟨by norm_num [badRanges], ?_⟩
  rw [genRecords_length]

/-- Claim C9 amended: the generator performs no configuration validation
and never fails: for every configuration — including sampling ranges with
lower bound ≥ upper bound — it emits exactly `N * L` records; a
non-positive `num_sequences` or `sequence_length` simply yields an empty
table rather than an error. -/
theorem generation_never_fails (R : Ranges) (rng : ℕ → ℝ) (L N : ℕ) :
    (genRecords R rng L N).length = N * L :=
  genRecords_length R rng L N

end Furnace
